import Mathlib

/-!
Verification of the score-aggregation and rating-update core of the
berkhack repository (Eloquence.AI): the Elo-style rating engine
(`EloScoringSystem`) and the session aggregator (`gameStore`).

Conventions of the shallow embedding:
  * JavaScript numbers are idealised as exact rationals (`ℚ`) where the
    code only adds, multiplies, divides and compares, and as reals (`ℝ`)
    where the code computes the transcendental `Math.pow(10, x)`.
  * `Math.round` (round half towards positive infinity) is Mathlib's
    `round`, which satisfies `round x = ⌊x + 1/2⌋`.
  * The zustand store is modelled as a pure state-transition function per
    action: each action takes the pre-state and returns the post-state;
    calls to `Date.now()` / `new Date().toDateString()` /
    `new Date(s).getTime()` become explicit parameters (`now`, `today`,
    `dateMs`).
-/

/-! ## Rating engine, from `game-ui/src/utils/EloScoringSystem.ts` -/

/-- State of the `EloScoringSystem` class: its only field `kFactor`. -/
structure EloScoringSystem where
  kFactor : ℚ
deriving DecidableEq

/-- Constructor `new EloScoringSystem(kFactor)`. -/
def EloScoringSystem.make (kFactor : ℚ) : EloScoringSystem :=
  ⟨kFactor⟩

/-- Constructor call with the default argument, `new EloScoringSystem()`:
the K-factor defaults to 32.  This is the instance built at module load in
`gameStore.ts` (`const eloSystem = new EloScoringSystem()`). -/
def eloSystem : EloScoringSystem :=
  EloScoringSystem.make 32

/-- Method `getExpectedScore(ratingA, ratingB)`:
`1 / (1 + Math.pow(10, (ratingB - ratingA) / 400))`. -/
noncomputable def EloScoringSystem.getExpectedScore
    (_sys : EloScoringSystem) (ratingA ratingB : ℝ) : ℝ :=
  1 / (1 + (10 : ℝ) ^ ((ratingB - ratingA) / 400))

/-- Method `updateRating(currentRating, actualScore, opponentRating)`. -/
noncomputable def EloScoringSystem.updateRating
    (sys : EloScoringSystem) (currentRating actualScore opponentRating : ℝ) : ℤ :=
  let expectedScore := sys.getExpectedScore currentRating opponentRating
  let actualScoreNormalized := actualScore / 100
  let newRating := currentRating + (sys.kFactor : ℝ) * (actualScoreNormalized - expectedScore)
  round newRating

/-- Method `calculateRatingChange(currentRating, actualScore, opponentRating)`:
the delta alone, not applied. -/
noncomputable def EloScoringSystem.calculateRatingChange
    (sys : EloScoringSystem) (currentRating actualScore opponentRating : ℝ) : ℤ :=
  let expectedScore := sys.getExpectedScore currentRating opponentRating
  let actualScoreNormalized := actualScore / 100
  round ((sys.kFactor : ℝ) * (actualScoreNormalized - expectedScore))

/-- Method `getRatingCategory(rating)`: fixed thresholds.  The comparisons
are exact, so the rating is taken in `ℚ` to keep the function decidable. -/
def EloScoringSystem.getRatingCategory
    (_sys : EloScoringSystem) (rating : ℚ) : String :=
  if rating ≥ 2000 then "Grandmaster"
  else if rating ≥ 1800 then "Master"
  else if rating ≥ 1600 then "Expert"
  else if rating ≥ 1400 then "Advanced"
  else if rating ≥ 1200 then "Intermediate"
  else if rating ≥ 1000 then "Beginner"
  else "Novice"

/-- Method `setKFactor(gamesPlayed)`: adaptive K-factor policy. -/
def EloScoringSystem.setKFactor
    (sys : EloScoringSystem) (gamesPlayed : ℕ) : EloScoringSystem :=
  if gamesPlayed < 30 then { sys with kFactor := 40 }
  else if gamesPlayed < 100 then { sys with kFactor := 32 }
  else { sys with kFactor := 24 }

/-- Method `getWinProbability(ratingA, ratingB)`: returns `getExpectedScore`. -/
noncomputable def EloScoringSystem.getWinProbability
    (sys : EloScoringSystem) (ratingA ratingB : ℝ) : ℝ :=
  sys.getExpectedScore ratingA ratingB

/-! ### Helper lemmas for the rating engine -/

/-- Rounding is monotone. -/
theorem round_le_round_of_le {α : Type} [LinearOrderedField α] [FloorRing α]
    {x y : α} (h : x ≤ y) : round x ≤ round y := by
  rw [round_eq, round_eq]
  exact Int.floor_mono (by linarith)

/-- C2: `updateRating` returns `round(currentRating + K * (actualScore/100 -
expectedScore(currentRating, opponentRating)))` with the default K-factor 32,
and `calculateRatingChange` returns only the delta
`round(K * (actualScore/100 - expectedScore))` without applying it. -/
theorem eloSystem_updateRating_formula (currentRating actualScore opponentRating : ℝ) :
    eloSystem.kFactor = 32 ∧
    eloSystem.updateRating currentRating actualScore opponentRating =
      round (currentRating +
        32 * (actualScore / 100 - eloSystem.getExpectedScore currentRating opponentRating)) ∧
    eloSystem.calculateRatingChange currentRating actualScore opponentRating =
      round ((32 : ℝ) *
        (actualScore / 100 - eloSystem.getExpectedScore currentRating opponentRating)) := by
  refine ⟨rfl, ?_, ?_⟩ <;>
    simp [EloScoringSystem.updateRating, EloScoringSystem.calculateRatingChange,
      eloSystem, EloScoringSystem.make]

/-- C3: `getExpectedScore` is the logistic expectation
`1 / (1 + 10 ^ ((b - a) / 400))`, lies strictly between 0 and 1 for all real
inputs, satisfies `expectedScore(a,b) + expectedScore(b,a) = 1`, and
`getWinProbability` returns the same value. -/
theorem eloSystem_expectedScore_logistic (sys : EloScoringSystem) (a b : ℝ) :
    sys.getExpectedScore a b = 1 / (1 + (10 : ℝ) ^ ((b - a) / 400)) ∧
    0 < sys.getExpectedScore a b ∧
    sys.getExpectedScore a b < 1 ∧
    sys.getExpectedScore a b + sys.getExpectedScore b a = 1 ∧
    sys.getWinProbability a b = sys.getExpectedScore a b := by
  have h10 : (0 : ℝ) < 10 := by norm_num
  have htpos : 0 < (10 : ℝ) ^ ((b - a) / 400) := Real.rpow_pos_of_pos h10 _
  have hupos : 0 < (10 : ℝ) ^ ((a - b) / 400) := Real.rpow_pos_of_pos h10 _
  have hu : (10 : ℝ) ^ ((a - b) / 400) = ((10 : ℝ) ^ ((b - a) / 400))⁻¹ := by
    rw [← Real.rpow_neg (le_of_lt h10)]
    ring_nf
  refine ⟨rfl, ?_, ?_, ?_, rfl⟩
  · unfold EloScoringSystem.getExpectedScore
    positivity
  · unfold EloScoringSystem.getExpectedScore
    rw [div_lt_one (by linarith)]
    linarith
  · unfold EloScoringSystem.getExpectedScore
    rw [hu]
    have hne : (10 : ℝ) ^ ((b - a) / 400) ≠ 0 := ne_of_gt htpos
    field_simp
    ring

/-- C4: for fixed current and opponent ratings, `updateRating` is
non-decreasing in `actualScore`. -/
theorem eloSystem_updateRating_monotone (currentRating opponentRating s1 s2 : ℝ)
    (h : s1 ≤ s2) :
    eloSystem.updateRating currentRating s1 opponentRating ≤
      eloSystem.updateRating currentRating s2 opponentRating := by
  unfold EloScoringSystem.updateRating
  apply round_le_round_of_le
  have hk : ((eloSystem.kFactor : ℚ) : ℝ) = 32 := by
    norm_num [eloSystem, EloScoringSystem.make]
  rw [hk]
  have : s1 / 100 ≤ s2 / 100 := by linarith
  nlinarith

/-- Witness for C4 at a concrete input. -/
theorem eloSystem_updateRating_monotone_witness :
    (40 : ℝ) ≤ 60 ∧
    eloSystem.updateRating 1200 40 1200 ≤ eloSystem.updateRating 1200 60 1200 :=
  ⟨by norm_num, eloSystem_updateRating_monotone 1200 1200 40 60 (by norm_num)⟩

/-- C5 counterexample: `getRatingCategory(1999)` is not `"Advanced"` (1999 is
at least 1800, so the code returns `"Master"`). -/
theorem eloSystem_category_1999_not_advanced :
    eloSystem.getRatingCategory 1999 ≠ "Advanced" := by decide

/-- C5 amended: `getRatingCategory(1999) = "Master"` and
`getRatingCategory(2000) = "Grandmaster"`; the tier boundary is inclusive on
the upper tier. -/
theorem eloSystem_category_boundaries :
    eloSystem.getRatingCategory 1999 = "Master" ∧
    eloSystem.getRatingCategory 2000 = "Grandmaster" := by decide

/-! ## Session aggregator, from `game-ui/src/stores/gameStore.ts`

The store state and its actions.  Fields of the feedback schemas that the
store never reads (sub-scores, transcripts, timestamps — display only, per
`shared/schemas.ts`) are elided; the rating core reads only `overallScore`.
The display-only `audienceReaction` slot and the `settings` record of the
store are likewise untouched by every action modelled here and are elided
from the state. -/

/-- Speech feedback as consumed by the store: only `overallScore` is read. -/
structure SpeechFeedback where
  overallScore : ℚ
deriving DecidableEq

/-- Visual feedback as consumed by the store: only `overallScore` is read. -/
structure VisualFeedback where
  overallScore : ℚ
deriving DecidableEq

/-- Audience-reaction triple stored on a session record by `startSession`. -/
structure AudienceReaction where
  engagement : ℚ
  attention : ℚ
  positiveFeedback : ℚ
deriving DecidableEq

/-- Session record, matching the object literal built in `startSession`. -/
structure Session where
  sessionId : String
  startTime : ℚ
  endTime : ℚ
  duration : ℚ
  speechFeedback : List SpeechFeedback
  visualFeedback : List VisualFeedback
  combinedScore : ℚ
  eloChange : ℚ
  audienceReaction : AudienceReaction
deriving DecidableEq

/-- Store state (`GameState`), restricted to the fields the modelled
actions touch. -/
structure GameState where
  isSessionActive : Bool
  sessionId : Option String
  sessionStartTime : Option ℚ
  speechFeedback : Option SpeechFeedback
  visualFeedback : Option VisualFeedback
  currentEloRating : ℚ
  sessionHistory : List Session
  xp : ℚ
  streak : ℚ
  lastSessionDate : Option String
deriving DecidableEq

/-- Initial store state. -/
def initialState : GameState :=
  { isSessionActive := false
    sessionId := none
    sessionStartTime := none
    speechFeedback := none
    visualFeedback := none
    currentEloRating := 1200
    sessionHistory := []
    xp := 0
    streak := 0
    lastSessionDate := none }

/-- Action `startSession(sessionId)`; `now` stands for `Date.now()`. -/
def startSession (sessionId : String) (now : ℚ) (s : GameState) : GameState :=
  let newSession : Session :=
    { sessionId := sessionId
      startTime := now
      endTime := 0
      duration := 0
      speechFeedback := []
      visualFeedback := []
      combinedScore := 0
      eloChange := 0
      audienceReaction := { engagement := 0, attention := 0, positiveFeedback := 0 } }
  { s with
    isSessionActive := true
    sessionId := some sessionId
    sessionStartTime := some now
    sessionHistory := newSession :: s.sessionHistory }

/-- Action `endSession()`; `now` stands for `Date.now()`, `today` for
`new Date().toDateString()` and `dateMs` for `s => new Date(s).getTime()`. -/
def endSession (now : ℚ) (today : String) (dateMs : String → ℚ) (s : GameState) :
    GameState :=
  if s.isSessionActive = false then s
  else
    match s.sessionHistory with
    | [] => s
    | currentSession :: rest =>
      let duration := (now - currentSession.startTime) / 1000
      let speechScores := currentSession.speechFeedback.map (fun f => f.overallScore)
      let avgSpeechScore : ℚ :=
        if speechScores.length > 0 then
          speechScores.foldl (fun a b => a + b) 0 / (speechScores.length : ℚ)
        else 0
      let visualScores := currentSession.visualFeedback.map (fun f => f.overallScore)
      let avgVisualScore : ℚ :=
        if visualScores.length > 0 then
          visualScores.foldl (fun a b => a + b) 0 / (visualScores.length : ℚ)
        else 0
      let combinedScore : ℚ :=
        if avgSpeechScore > 0 ∧ avgVisualScore > 0 then
          ((round (avgSpeechScore * 0.7 + avgVisualScore * 0.3) : ℤ) : ℚ)
        else if avgVisualScore > 0 then avgVisualScore
        else avgSpeechScore
      let currentSession' :=
        { currentSession with
          duration := duration
          endTime := now
          combinedScore := combinedScore }
      let currentElo := s.currentEloRating
      let eloChange : ℚ := ((round (combinedScore - 50) : ℤ) : ℚ)
      let newElo := currentElo + eloChange
      let xp := s.xp + 10
      let streakDate : ℚ × Option String :=
        if s.lastSessionDate ≠ some today then
          match s.lastSessionDate with
          | some last =>
            if dateMs today - dateMs last > 86400000 then (1, some today)
            else (s.streak + 1, some today)
          | none => (s.streak + 1, some today)
        else (s.streak, s.lastSessionDate)
      { s with
        isSessionActive := false
        sessionId := none
        sessionStartTime := none
        sessionHistory := currentSession' :: rest
        currentEloRating := newElo
        xp := xp
        streak := streakDate.1
        lastSessionDate := streakDate.2 }

/-- Action `setSpeechFeedback(feedback)` (the spec's
`recordSpeechFeedback`): pushes onto the head history record whenever the
history is non-empty, and always updates the latest-feedback slot. -/
def setSpeechFeedback (feedback : SpeechFeedback) (s : GameState) : GameState :=
  match s.sessionHistory with
  | [] => { s with speechFeedback := some feedback }
  | head :: tail =>
    { s with
      speechFeedback := some feedback
      sessionHistory :=
        { head with speechFeedback := head.speechFeedback ++ [feedback] } :: tail }

/-- Action `setVisualFeedback(feedback)` (the spec's
`recordVisualFeedback`). -/
def setVisualFeedback (feedback : VisualFeedback) (s : GameState) : GameState :=
  match s.sessionHistory with
  | [] => { s with visualFeedback := some feedback }
  | head :: tail =>
    { s with
      visualFeedback := some feedback
      sessionHistory :=
        { head with visualFeedback := head.visualFeedback ++ [feedback] } :: tail }

/-- Action `updateEloRating(newRating)`. -/
def updateEloRating (newRating : ℚ) (s : GameState) : GameState :=
  { s with currentEloRating := newRating }

/-- Action `resetSession()` (restricted to the modelled fields). -/
def resetSession (s : GameState) : GameState :=
  { s with
    isSessionActive := false
    sessionId := none
    sessionStartTime := none
    speechFeedback := none
    visualFeedback := none }

/-! ### Spec-side definitions used for refinement statements -/

/-- Spec side, section 4.2 steps 2 and 3: arithmetic mean of the recorded
overall scores, 0 if none were recorded. -/
def specAvg (scores : List ℚ) : ℚ :=
  if scores = [] then 0 else scores.sum / (scores.length : ℚ)

/-- Spec side, section 4.2 step 4: the combination rule.  If both averages
are greater than 0, `round(avgSpeech*0.7 + avgVisual*0.3)`; if only the
visual average is greater than 0, the visual average; otherwise the speech
average. -/
def specCombine (avgSpeech avgVisual : ℚ) : ℚ :=
  if avgSpeech > 0 ∧ avgVisual > 0 then
    ((round (avgSpeech * 0.7 + avgVisual * 0.3) : ℤ) : ℚ)
  else if avgVisual > 0 then avgVisual
  else avgSpeech

/-! ### Helper lemmas for the session aggregator -/

/-- Left fold of addition computes the list sum. -/
theorem foldl_add_eq_sum (l : List ℚ) :
    ∀ a : ℚ, l.foldl (fun a b => a + b) a = a + l.sum := by
  induction l with
  | nil => intro a; simp
  | cons x t ih =>
    intro a
    simp only [List.foldl_cons, List.sum_cons, ih (a + x)]
    ring

/-- The inline average computed in `endSession` (guarded fold divided by the
length) equals the spec-side arithmetic mean `specAvg`. -/
theorem foldlAvg_eq_specAvg (l : List ℚ) :
    (if l.length > 0 then l.foldl (fun a b => a + b) 0 / (l.length : ℚ) else 0) =
      specAvg l := by
  cases l with
  | nil => simp [specAvg]
  | cons x t =>
    have hne : ¬(x :: t = []) := by simp
    simp only [specAvg, if_neg hne, List.length_cons, foldl_add_eq_sum, List.sum_cons]
    norm_num

/-- Characterisation of `endSession` on an active state with a current
session at the head of the history: the head record is finalised with the
spec-side combined score, the committed rating moves by
`round(combinedScore - 50)`, and the session becomes inactive. -/
theorem endSession_active_spec (s : GameState) (now : ℚ) (today : String)
    (dateMs : String → ℚ) (cur : Session) (rest : List Session)
    (hact : s.isSessionActive = true) (hhist : s.sessionHistory = cur :: rest) :
    (endSession now today dateMs s).sessionHistory =
      { cur with
        duration := (now - cur.startTime) / 1000
        endTime := now
        combinedScore :=
          specCombine (specAvg (cur.speechFeedback.map (fun f => f.overallScore)))
            (specAvg (cur.visualFeedback.map (fun f => f.overallScore))) } :: rest ∧
    (endSession now today dateMs s).currentEloRating =
      s.currentEloRating +
        ((round (specCombine (specAvg (cur.speechFeedback.map (fun f => f.overallScore)))
            (specAvg (cur.visualFeedback.map (fun f => f.overallScore))) - 50) : ℤ) : ℚ) ∧
    (endSession now today dateMs s).isSessionActive = false := by
  unfold endSession
  rw [hact, hhist]
  simp only [Bool.true_eq_false, if_false, foldlAvg_eq_specAvg, specCombine]
  exact ⟨trivial, trivial, trivial⟩

/-- Guard of `endSession`: on an inactive state it returns at once and the
state is unchanged. -/
theorem endSession_inactive (now : ℚ) (today : String) (dateMs : String → ℚ)
    (s : GameState) (h : s.isSessionActive = false) :
    endSession now today dateMs s = s := by
  unfold endSession
  rw [h]
  simp

/-- With an empty history, `endSession` finds no current session and leaves
the state unchanged. -/
theorem endSession_empty_history (now : ℚ) (today : String) (dateMs : String → ℚ)
    (s : GameState) (h : s.sessionHistory = []) :
    endSession now today dateMs s = s := by
  unfold endSession
  rw [h]
  split <;> rfl

/-- Concrete run shared by several witnesses: a session started at time 5. -/
def startedState : GameState := startSession "s1" 5 initialState

/-- Concrete run shared by several witnesses: the started session ended at
time 1005 with no feedback recorded. -/
def endedEmptyState : GameState := endSession 1005 "d" (fun _ => 0) startedState

/-- Explicit value of `startedState`. -/
theorem startedState_eq :
    startedState =
      { isSessionActive := true, sessionId := some "s1", sessionStartTime := some 5,
        speechFeedback := none, visualFeedback := none, currentEloRating := 1200,
        sessionHistory := [{ sessionId := "s1", startTime := 5, endTime := 0,
                             duration := 0, speechFeedback := [], visualFeedback := [],
                             combinedScore := 0, eloChange := 0,
                             audienceReaction := ⟨0, 0, 0⟩ }],
        xp := 0, streak := 0, lastSessionDate := none } := rfl

/-- Explicit value of `endedEmptyState`: combined score 0, rating dropped by
50 to 1150, session finalised at end time 1005 with duration 1 second. -/
theorem endedEmptyState_eq :
    endedEmptyState =
      { isSessionActive := false, sessionId := none, sessionStartTime := none,
        speechFeedback := none, visualFeedback := none, currentEloRating := 1150,
        sessionHistory := [{ sessionId := "s1", startTime := 5, endTime := 1005,
                             duration := 1, speechFeedback := [], visualFeedback := [],
                             combinedScore := 0, eloChange := 0,
                             audienceReaction := ⟨0, 0, 0⟩ }],
        xp := 10, streak := 1, lastSessionDate := some "d" } := by
  rw [endedEmptyState, startedState_eq]
  norm_num [endSession, round_eq]
  simp

/-- C1: on an active session, `endSession` finalises the head record with the
spec-side combined score: both per-modality averages greater than 0 gives
`round(avgSpeech*0.7 + avgVisual*0.3)`; only visual greater than 0 gives the
visual average; otherwise the speech average (0 when no feedback was
recorded).  In particular the combination of averages 80 and 60 is 74. -/
theorem endSession_combination_rule (s : GameState) (now : ℚ) (today : String)
    (dateMs : String → ℚ) (cur : Session) (rest : List Session)
    (hact : s.isSessionActive = true) (hhist : s.sessionHistory = cur :: rest) :
    (endSession now today dateMs s).sessionHistory.head? =
      some { cur with
        duration := (now - cur.startTime) / 1000
        endTime := now
        combinedScore :=
          specCombine (specAvg (cur.speechFeedback.map (fun f => f.overallScore)))
            (specAvg (cur.visualFeedback.map (fun f => f.overallScore))) } ∧
    specCombine 80 60 = 74 := by
  refine ⟨?_, by norm_num [specCombine, round_eq]⟩
  rw [(endSession_active_spec s now today dateMs cur rest hact hhist).1]
  rfl

/-- Witness for C1: the end-to-end scenario of the spec, speech feedback 80
twice and visual feedback 60 once, ends with combined score 74. -/
theorem endSession_combination_rule_witness :
    ((endSession 1005 "d" (fun _ => 0)
        (setVisualFeedback ⟨60⟩ (setSpeechFeedback ⟨80⟩ (setSpeechFeedback ⟨80⟩
          startedState)))).sessionHistory.head?.map
      Session.combinedScore) = some 74 := by
  have h := (endSession_combination_rule
      (setVisualFeedback ⟨60⟩ (setSpeechFeedback ⟨80⟩ (setSpeechFeedback ⟨80⟩
        startedState))) 1005 "d" (fun _ => 0)
      { sessionId := "s1", startTime := 5, endTime := 0, duration := 0,
        speechFeedback := [⟨80⟩, ⟨80⟩], visualFeedback := [⟨60⟩],
        combinedScore := 0, eloChange := 0, audienceReaction := ⟨0, 0, 0⟩ } []
      rfl rfl).1
  rw [h]
  simp [specAvg, specCombine]
  norm_num [round_eq]

/-- C6: a second `endSession` in a row is a no-op — ending is idempotent, the
rating update is applied exactly once, and `endSession` on an inactive state
returns the state unchanged. -/
theorem endSession_double_end_guard (s : GameState) (n1 n2 : ℚ) (t1 t2 : String)
    (d1 d2 : String → ℚ) :
    endSession n2 t2 d2 (endSession n1 t1 d1 s) = endSession n1 t1 d1 s ∧
    (s.isSessionActive = false → endSession n1 t1 d1 s = s) := by
  refine ⟨?_, fun h => endSession_inactive n1 t1 d1 s h⟩
  by_cases hact : s.isSessionActive = true
  · cases hhist : s.sessionHistory with
    | nil =>
      rw [endSession_empty_history n1 t1 d1 s hhist,
        endSession_empty_history n2 t2 d2 s hhist]
    | cons cur rest =>
      exact endSession_inactive n2 t2 d2 _
        (endSession_active_spec s n1 t1 d1 cur rest hact hhist).2.2
  · rw [Bool.not_eq_true] at hact
    rw [endSession_inactive n1 t1 d1 s hact, endSession_inactive n2 t2 d2 s hact]

/-- Witness for C6 at a concrete inactive state. -/
theorem endSession_double_end_guard_witness :
    initialState.isSessionActive = false ∧
    endSession 5 "d" (fun _ => 0) initialState = initialState :=
  ⟨rfl, (endSession_double_end_guard initialState 5 5 "d" "d"
    (fun _ => 0) (fun _ => 0)).2 rfl⟩

/-- C7 counterexample: after a session has ended (no session active), calling
`setSpeechFeedback` still mutates the finalized head record of the history,
because the code only checks that the history is non-empty. -/
theorem setSpeechFeedback_mutates_finalized_record :
    endedEmptyState.isSessionActive = false ∧
    (setSpeechFeedback ⟨70⟩ endedEmptyState).sessionHistory ≠
      endedEmptyState.sessionHistory := by
  rw [endedEmptyState_eq]
  refine ⟨rfl, ?_⟩
  simp [setSpeechFeedback]

/-- C7 amended: with no session active the feedback recorders never throw
(they are total functions) and leave an empty history empty, but when the
history is non-empty they append the feedback to the most recent session
record even if it is already finalized. -/
theorem setFeedback_inactive_behaviour (s : GameState)
    (fs : SpeechFeedback) (fv : VisualFeedback)
    (_hinact : s.isSessionActive = false) :
    (s.sessionHistory = [] →
      (setSpeechFeedback fs s).sessionHistory = [] ∧
      (setVisualFeedback fv s).sessionHistory = []) ∧
    (∀ hd tl, s.sessionHistory = hd :: tl →
      (setSpeechFeedback fs s).sessionHistory =
        { hd with speechFeedback := hd.speechFeedback ++ [fs] } :: tl ∧
      (setVisualFeedback fv s).sessionHistory =
        { hd with visualFeedback := hd.visualFeedback ++ [fv] } :: tl) := by
  constructor
  · intro h
    constructor <;> simp [setSpeechFeedback, setVisualFeedback, h]
  · intro hd tl h
    constructor <;> simp [setSpeechFeedback, setVisualFeedback, h]

/-- Witness for C7 amended at the concrete post-end state. -/
theorem setFeedback_inactive_behaviour_witness :
    (setSpeechFeedback ⟨70⟩ endedEmptyState).sessionHistory =
      ({ sessionId := "s1", startTime := 5, endTime := 1005, duration := 1,
         speechFeedback := [⟨70⟩], visualFeedback := [], combinedScore := 0,
         eloChange := 0, audienceReaction := ⟨0, 0, 0⟩ } : Session) :: [] := by
  have h := (setFeedback_inactive_behaviour endedEmptyState ⟨70⟩ ⟨70⟩
      (by rw [endedEmptyState_eq])).2
      { sessionId := "s1", startTime := 5, endTime := 1005, duration := 1,
        speechFeedback := [], visualFeedback := [], combinedScore := 0,
        eloChange := 0, audienceReaction := ⟨0, 0, 0⟩ } []
      (by rw [endedEmptyState_eq])
  exact h.1.trans (by simp)

/-- History shape of `setSpeechFeedback` when the history is empty. -/
theorem setSpeechFeedback_history_nil (f : SpeechFeedback) (s : GameState)
    (h : s.sessionHistory = []) : (setSpeechFeedback f s).sessionHistory = [] := by
  simp [setSpeechFeedback, h]

/-- History shape of `setSpeechFeedback` when the history is non-empty. -/
theorem setSpeechFeedback_history_cons (f : SpeechFeedback) (s : GameState)
    (hd : Session) (tl : List Session) (h : s.sessionHistory = hd :: tl) :
    (setSpeechFeedback f s).sessionHistory =
      { hd with speechFeedback := hd.speechFeedback ++ [f] } :: tl := by
  simp [setSpeechFeedback, h]

/-- History shape of `setVisualFeedback` when the history is empty. -/
theorem setVisualFeedback_history_nil (f : VisualFeedback) (s : GameState)
    (h : s.sessionHistory = []) : (setVisualFeedback f s).sessionHistory = [] := by
  simp [setVisualFeedback, h]

/-- History shape of `setVisualFeedback` when the history is non-empty. -/
theorem setVisualFeedback_history_cons (f : VisualFeedback) (s : GameState)
    (hd : Session) (tl : List Session) (h : s.sessionHistory = hd :: tl) :
    (setVisualFeedback f s).sessionHistory =
      { hd with visualFeedback := hd.visualFeedback ++ [f] } :: tl := by
  simp [setVisualFeedback, h]

/-- States reachable through the session-lifecycle actions of the store,
starting from the initial state.  `Date.now()` is modelled as an arbitrary
non-zero time at `endSession` (the only action that stores it as an
`endTime`).  The helper `addSessionToHistory`, which has no call sites in
the repository, is not part of the lifecycle. -/
inductive Reachable : GameState → Prop where
  | init : Reachable initialState
  | start (sessionId : String) (now : ℚ) {s : GameState} :
      Reachable s → Reachable (startSession sessionId now s)
  | finish (now : ℚ) (today : String) (dateMs : String → ℚ) (hnow : now ≠ 0)
      {s : GameState} : Reachable s → Reachable (endSession now today dateMs s)
  | speech (f : SpeechFeedback) {s : GameState} :
      Reachable s → Reachable (setSpeechFeedback f s)
  | visual (f : VisualFeedback) {s : GameState} :
      Reachable s → Reachable (setVisualFeedback f s)
  | rate (r : ℚ) {s : GameState} :
      Reachable s → Reachable (updateEloRating r s)
  | reset {s : GameState} : Reachable s → Reachable (resetSession s)

/-- C8: in every lifecycle-reachable state, a history record that is still
active (`endTime = 0`) carries no combined score — its `combinedScore` is
still the initial placeholder 0.  A computed value is assigned only at
finalisation, when `endTime` is set to the non-zero end time. -/
theorem combinedScore_unset_while_active (s : GameState) (hs : Reachable s) :
    ∀ sess ∈ s.sessionHistory, sess.endTime = 0 → sess.combinedScore = 0 := by
  induction hs with
  | init =>
    intro sess hmem
    simp [initialState] at hmem
  | start sid now hr ih =>
    intro sess hmem hend
    simp only [startSession] at hmem
    rcases List.mem_cons.mp hmem with rfl | hmem
    · rfl
    · exact ih sess hmem hend
  | finish now today dateMs hnow hr ih =>
    intro sess hmem hend
    rename_i st
    by_cases hact : st.isSessionActive = true
    · cases hhist : st.sessionHistory with
      | nil =>
        rw [endSession_empty_history _ _ _ _ hhist] at hmem
        exact ih sess hmem hend
      | cons cur rest =>
        rw [(endSession_active_spec _ now today dateMs cur rest hact hhist).1] at hmem
        rcases List.mem_cons.mp hmem with rfl | hmem
        · exact absurd hend hnow
        · exact ih sess (by rw [hhist]; exact List.mem_cons_of_mem cur hmem) hend
    · rw [Bool.not_eq_true] at hact
      rw [endSession_inactive _ _ _ _ hact] at hmem
      exact ih sess hmem hend
  | speech f hr ih =>
    intro sess hmem hend
    rename_i st
    cases hhist : st.sessionHistory with
    | nil =>
      rw [setSpeechFeedback_history_nil f _ hhist] at hmem
      simp at hmem
    | cons hd tl =>
      rw [setSpeechFeedback_history_cons f _ hd tl hhist] at hmem
      rcases List.mem_cons.mp hmem with rfl | hmem
      · exact ih hd (by rw [hhist]; exact List.mem_cons_self hd tl) hend
      · exact ih sess (by rw [hhist]; exact List.mem_cons_of_mem hd hmem) hend
  | visual f hr ih =>
    intro sess hmem hend
    rename_i st
    cases hhist : st.sessionHistory with
    | nil =>
      rw [setVisualFeedback_history_nil f _ hhist] at hmem
      simp at hmem
    | cons hd tl =>
      rw [setVisualFeedback_history_cons f _ hd tl hhist] at hmem
      rcases List.mem_cons.mp hmem with rfl | hmem
      · exact ih hd (by rw [hhist]; exact List.mem_cons_self hd tl) hend
      · exact ih sess (by rw [hhist]; exact List.mem_cons_of_mem hd hmem) hend
  | rate r hr ih =>
    intro sess hmem hend
    exact ih sess hmem hend
  | reset hr ih =>
    intro sess hmem hend
    exact ih sess hmem hend

/-- Witness for C8: the freshly started session record (endTime 0) has
combined score 0. -/
theorem combinedScore_unset_while_active_witness :
    ({ sessionId := "s1", startTime := 5, endTime := 0, duration := 0,
       speechFeedback := [], visualFeedback := [], combinedScore := 0,
       eloChange := 0, audienceReaction := ⟨0, 0, 0⟩ } : Session).combinedScore = 0 :=
  combinedScore_unset_while_active startedState
    (Reachable.start "s1" 5 Reachable.init) _
    (by rw [startedState_eq]; simp) rfl

/-- C9: ending an active session in which no feedback at all was recorded
yields combined score 0 and a deterministic drop of 50 rating points, so the
committed rating is strictly lower than the rating before the call. -/
theorem endSession_empty_feedback_drop (s : GameState) (now : ℚ) (today : String)
    (dateMs : String → ℚ) (cur : Session) (rest : List Session)
    (hact : s.isSessionActive = true) (hhist : s.sessionHistory = cur :: rest)
    (hsp : cur.speechFeedback = []) (hvi : cur.visualFeedback = []) :
    ((endSession now today dateMs s).sessionHistory.head?.map Session.combinedScore
      = some 0) ∧
    (endSession now today dateMs s).currentEloRating = s.currentEloRating - 50 ∧
    (endSession now today dateMs s).currentEloRating < s.currentEloRating := by
  have h := endSession_active_spec s now today dateMs cur rest hact hhist
  have hc : specCombine (specAvg (cur.speechFeedback.map (fun f => f.overallScore)))
      (specAvg (cur.visualFeedback.map (fun f => f.overallScore))) = 0 := by
    rw [hsp, hvi]
    simp [specAvg, specCombine]
  have hr : (endSession now today dateMs s).currentEloRating =
      s.currentEloRating - 50 := by
    rw [h.2.1, hc]
    norm_num [round_eq]
    ring
  refine ⟨?_, hr, by rw [hr]; linarith⟩
  rw [h.1]
  simp [hc]

/-- Witness for C9 at the concrete empty-session run. -/
theorem endSession_empty_feedback_drop_witness :
    (endSession 1005 "d" (fun _ => 0) startedState).currentEloRating <
      startedState.currentEloRating ∧
    ((endSession 1005 "d" (fun _ => 0) startedState).sessionHistory.head?.map
      Session.combinedScore) = some 0 := by
  have h := endSession_empty_feedback_drop startedState 1005 "d" (fun _ => 0)
      { sessionId := "s1", startTime := 5, endTime := 0, duration := 0,
        speechFeedback := [], visualFeedback := [], combinedScore := 0,
        eloChange := 0, audienceReaction := ⟨0, 0, 0⟩ } []
      rfl rfl rfl rfl
  exact ⟨h.2.2, h.1⟩

/-- Sum of a list of non-negative rationals is non-negative. -/
theorem list_sum_nonneg_of_nonneg (l : List ℚ) (h : ∀ x ∈ l, 0 ≤ x) :
    0 ≤ l.sum := by
  induction l with
  | nil => simp
  | cons a t ih =>
    have ha := h a (by simp)
    have ht := ih (fun x hx => h x (by simp [hx]))
    simp only [List.sum_cons]
    linarith

/-- Sum of a list of rationals bounded by 100 is at most 100 times the
length. -/
theorem list_sum_le_hundred_mul (l : List ℚ) (h : ∀ x ∈ l, x ≤ 100) :
    l.sum ≤ 100 * l.length := by
  induction l with
  | nil => simp
  | cons a t ih =>
    have ha := h a (by simp)
    have ht := ih (fun x hx => h x (by simp [hx]))
    simp only [List.sum_cons, List.length_cons]
    push_cast
    linarith

/-- The spec-side average of scores in [0, 100] is itself in [0, 100]. -/
theorem specAvg_bounds (l : List ℚ) (h : ∀ x ∈ l, 0 ≤ x ∧ x ≤ 100) :
    0 ≤ specAvg l ∧ specAvg l ≤ 100 := by
  unfold specAvg
  by_cases hl : l = []
  · simp [hl]
  · rw [if_neg hl]
    have hlen : 0 < (l.length : ℚ) := by
      have hp := List.length_pos.mpr hl
      exact_mod_cast hp
    constructor
    · exact div_nonneg
        (list_sum_nonneg_of_nonneg l (fun x hx => (h x hx).1)) (le_of_lt hlen)
    · rw [div_le_iff₀ hlen]
      have hs := list_sum_le_hundred_mul l (fun x hx => (h x hx).2)
      linarith

/-- A rounded rational in [0, 100] stays in [0, 100] after casting back. -/
theorem round_cast_bounds {x : ℚ} (h0 : 0 ≤ x) (h1 : x ≤ 100) :
    0 ≤ ((round x : ℤ) : ℚ) ∧ ((round x : ℤ) : ℚ) ≤ 100 := by
  have hlo : (0 : ℤ) ≤ round x := by
    have h := round_le_round_of_le h0
    simpa using h
  have hhi : round x ≤ 100 := by
    have h := round_le_round_of_le h1
    simpa using h
  exact ⟨by exact_mod_cast hlo, by exact_mod_cast hhi⟩

/-- The spec-side combination of averages in [0, 100] is in [0, 100]. -/
theorem specCombine_bounds {a v : ℚ} (ha0 : 0 ≤ a) (ha1 : a ≤ 100)
    (hv0 : 0 ≤ v) (hv1 : v ≤ 100) :
    0 ≤ specCombine a v ∧ specCombine a v ≤ 100 := by
  unfold specCombine
  by_cases h1 : a > 0 ∧ v > 0
  · rw [if_pos h1]
    have hx0 : 0 ≤ a * 0.7 + v * 0.3 := by nlinarith
    have hx1 : a * 0.7 + v * 0.3 ≤ 100 := by nlinarith
    exact round_cast_bounds hx0 hx1
  · rw [if_neg h1]
    by_cases h2 : v > 0
    · rw [if_pos h2]
      exact ⟨hv0, hv1⟩
    · rw [if_neg h2]
      exact ⟨ha0, ha1⟩

/-- Rounding `c - 50` for `c` in [0, 100] lands in [-50, 50]. -/
theorem round_sub_fifty_bounds {c : ℚ} (h0 : 0 ≤ c) (h1 : c ≤ 100) :
    -50 ≤ ((round (c - 50) : ℤ) : ℚ) ∧ ((round (c - 50) : ℤ) : ℚ) ≤ 50 := by
  have hlo : round ((-50 : ℚ)) ≤ round (c - 50) :=
    round_le_round_of_le (by linarith)
  have hhi : round (c - 50) ≤ round ((50 : ℚ)) :=
    round_le_round_of_le (by linarith)
  have e1 : round ((-50 : ℚ)) = -50 := by norm_num [round_eq]
  have e2 : round ((50 : ℚ)) = 50 := by norm_num [round_eq]
  rw [e1] at hlo
  rw [e2] at hhi
  exact ⟨by exact_mod_cast hlo, by exact_mod_cast hhi⟩

/-- Iterated empty sessions: start at time 5 and end at time 1005, n times,
with no feedback ever recorded. -/
def runEmptySessions : ℕ → GameState
  | 0 => initialState
  | n + 1 => endSession 1005 "d" (fun _ => 0) (startSession "s1" 5 (runEmptySessions n))

/-- One start/end cycle with no feedback drops the rating by exactly 50. -/
theorem emptyCycle_rating (s : GameState) (sid : String) (n1 n2 : ℚ) (t : String)
    (d : String → ℚ) :
    (endSession n2 t d (startSession sid n1 s)).currentEloRating =
      s.currentEloRating - 50 := by
  have h := endSession_active_spec (startSession sid n1 s) n2 t d
      { sessionId := sid, startTime := n1, endTime := 0, duration := 0,
        speechFeedback := [], visualFeedback := [], combinedScore := 0,
        eloChange := 0, audienceReaction := ⟨0, 0, 0⟩ } s.sessionHistory rfl rfl
  rw [h.2.1]
  have hs : (startSession sid n1 s).currentEloRating = s.currentEloRating := rfl
  rw [hs]
  norm_num [specAvg, specCombine, round_eq]
  ring

/-- Rating after n empty cycles: 1200 - 50 n. -/
theorem runEmptySessions_rating (n : ℕ) :
    (runEmptySessions n).currentEloRating = 1200 - 50 * n := by
  induction n with
  | zero => norm_num [runEmptySessions, initialState]
  | succ n ih =>
    rw [runEmptySessions, emptyCycle_rating, ih]
    push_cast
    ring

/-- C10: when every recorded feedback score of the session lies in [0, 100],
the rating change committed by `endSession` equals `round(combinedScore - 50)`
for a combined score in [0, 100], hence lies in [-50, 50]; the rating itself
carries no clamp, and 25 empty sessions in a row drive it below 0. -/
theorem endSession_rating_change_bounded (s : GameState) (now : ℚ) (today : String)
    (dateMs : String → ℚ) (cur : Session) (rest : List Session)
    (hact : s.isSessionActive = true) (hhist : s.sessionHistory = cur :: rest)
    (hsp : ∀ f ∈ cur.speechFeedback, 0 ≤ f.overallScore ∧ f.overallScore ≤ 100)
    (hvi : ∀ f ∈ cur.visualFeedback, 0 ≤ f.overallScore ∧ f.overallScore ≤ 100) :
    (∃ hd tl, (endSession now today dateMs s).sessionHistory = hd :: tl ∧
      0 ≤ hd.combinedScore ∧ hd.combinedScore ≤ 100 ∧
      (endSession now today dateMs s).currentEloRating - s.currentEloRating =
        ((round (hd.combinedScore - 50) : ℤ) : ℚ)) ∧
    -50 ≤ (endSession now today dateMs s).currentEloRating - s.currentEloRating ∧
    (endSession now today dateMs s).currentEloRating - s.currentEloRating ≤ 50 ∧
    (runEmptySessions 25).currentEloRating < 0 := by
  have h := endSession_active_spec s now today dateMs cur rest hact hhist
  have hAs := specAvg_bounds (cur.speechFeedback.map (fun f => f.overallScore))
    (by
      intro x hx
      obtain ⟨f, hf, rfl⟩ := List.mem_map.mp hx
      exact hsp f hf)
  have hAv := specAvg_bounds (cur.visualFeedback.map (fun f => f.overallScore))
    (by
      intro x hx
      obtain ⟨f, hf, rfl⟩ := List.mem_map.mp hx
      exact hvi f hf)
  have hC := specCombine_bounds hAs.1 hAs.2 hAv.1 hAv.2
  have hdelta : (endSession now today dateMs s).currentEloRating - s.currentEloRating =
      ((round (specCombine (specAvg (cur.speechFeedback.map (fun f => f.overallScore)))
          (specAvg (cur.visualFeedback.map (fun f => f.overallScore))) - 50) : ℤ) : ℚ) := by
    rw [h.2.1]
    ring
  have hB := round_sub_fifty_bounds hC.1 hC.2
  refine ⟨⟨_, rest, h.1, hC.1, hC.2, hdelta⟩, ?_, ?_, ?_⟩
  · rw [hdelta]
    exact hB.1
  · rw [hdelta]
    exact hB.2
  · rw [runEmptySessions_rating]
    norm_num

/-- Witness for C10: a session with one speech feedback of 80 changes the
rating by round(80 - 50) = 30, inside the [-50, 50] bounds. -/
theorem endSession_rating_change_bounded_witness :
    -50 ≤ (endSession 1005 "d" (fun _ => 0)
        (setSpeechFeedback ⟨80⟩ startedState)).currentEloRating -
      (setSpeechFeedback ⟨80⟩ startedState).currentEloRating ∧
    (endSession 1005 "d" (fun _ => 0)
        (setSpeechFeedback ⟨80⟩ startedState)).currentEloRating -
      (setSpeechFeedback ⟨80⟩ startedState).currentEloRating ≤ 50 := by
  have h := endSession_rating_change_bounded (setSpeechFeedback ⟨80⟩ startedState)
      1005 "d" (fun _ => 0)
      { sessionId := "s1", startTime := 5, endTime := 0, duration := 0,
        speechFeedback := [⟨80⟩], visualFeedback := [], combinedScore := 0,
        eloChange := 0, audienceReaction := ⟨0, 0, 0⟩ } []
      rfl rfl
      (by
        intro f hf
        simp at hf
        subst hf
        norm_num)
      (by simp)
  exact ⟨h.2.1, h.2.2.1⟩
